import Mathlib

/-!
Shallow embedding of the lumbermixalot Blender add-on sources
(`mainmixalot.py` and `commonmixalot.py`) and proofs about them.

The Python sources drive Blender's `bpy` API.  The embedding renders the
pure string/path computations directly (following CPython's `str.strip`,
`posixpath.splitext`, `posixpath.normpath`, `posixpath.basename`,
`posixpath.join`), abstracts the filesystem as an explicit `FS` record
(which paths exist, which directory creations succeed), and renders the
generator `Convert` as the list of events it yields.
-/

/-- Characters removed by Python `str.strip()` with no arguments
(space, tab, newline, carriage return, vertical tab, form feed). -/
def pyIsSpace (c : Char) : Bool :=
  c = ' ' || c = '\t' || c = '\n' || c = '\r' || c = '\x0b' || c = '\x0c'

/-- Python `str.strip()`: remove leading and trailing whitespace. -/
def pyStrip (s : String) : String :=
  String.mk (((s.data.dropWhile pyIsSpace).reverse.dropWhile pyIsSpace).reverse)

/-- Index of the last occurrence of `c` in `l`, or `-1` when absent
(Python `str.rfind` on a single character). -/
def rfindChar (l : List Char) (c : Char) : Int :=
  match l.reverse.findIdx? (fun x => x = c) with
  | some i => (l.length : Int) - 1 - (i : Int)
  | none => -1

/-- CPython `posixpath.splitext`: split off the final dot-extension of the
last path component; a run of leading dots in the component is not an
extension separator. -/
def pySplitext (p : String) : String × String :=
  let l := p.data
  let sepIndex := rfindChar l '/'
  let dotIndex := rfindChar l '.'
  if sepIndex < dotIndex then
    let base := (l.drop (sepIndex + 1).toNat).take (dotIndex - sepIndex - 1).toNat
    if base.any (fun c => c ≠ '.') then
      (String.mk (l.take dotIndex.toNat), String.mk (l.drop dotIndex.toNat))
    else (p, "")
  else (p, "")

/-- CPython `posixpath.basename`: everything after the last slash. -/
def pyBasename (p : String) : String :=
  String.mk (p.data.drop ((rfindChar p.data '/') + 1).toNat)

/-- Python `str.split("/")` on a character list. -/
def splitComps : List Char → List (List Char)
  | [] => [[]]
  | c :: rest =>
    let r := splitComps rest
    if c = '/' then [] :: r
    else
      match r with
      | [] => [[c]]
      | h :: t => (c :: h) :: t

/-- CPython `posixpath.normpath`. -/
def pyNormpath (path : String) : String :=
  if path = "" then "." else
  let l := path.data
  let initialSlashes : Nat :=
    if l.take 1 = ['/'] then
      (if l.take 2 = ['/', '/'] && l.take 3 ≠ ['/', '/', '/'] then 2 else 1)
    else 0
  let comps := splitComps l
  let newComps := comps.foldl (fun acc comp =>
    if comp = [] || comp = ['.'] then acc
    else if comp ≠ ['.', '.'] || (initialSlashes = 0 && acc = []) ||
            (acc ≠ [] && acc.getLast? = some ['.', '.']) then acc ++ [comp]
    else if acc ≠ [] then acc.dropLast
    else acc) ([] : List (List Char))
  let joined := String.mk (List.flatten (List.intersperse ['/'] newComps))
  let p := String.mk (List.replicate initialSlashes '/') ++ joined
  if p = "" then "." else p

/-- CPython `posixpath.join` restricted to two arguments. -/
def pyJoin (a b : String) : String :=
  if b.data.take 1 = ['/'] then b
  else if a = "" || a.data.getLast? = some '/' then a ++ b
  else a ++ "/" ++ b

/-- Python `repr` of a boolean, as used by `"isActor={}".format(isActor)`. -/
def pyBoolRepr (b : Bool) : String := if b then "True" else "False"

/-- The idiom `x = "" if (x is None) else x.strip()` used on the optional
string arguments of `_GetOutputFilename` and `Convert`. -/
def pyStripOrEmpty : Option String → String
  | none => ""
  | some s => pyStrip s

deriving instance DecidableEq for Except

/-- Errors a Python call in these sources can raise. -/
inductive PyErr where
  | nameError (n : String)
  | exception (msg : String)
  | keyError (k : String)
  | indexError
  deriving DecidableEq

/-- The filesystem facts the sources consult: `os.path.exists`, and whether
`os.makedirs` succeeds on a given path. -/
structure FS where
  pathExists : String → Bool
  mkdirOk : String → Bool

/-- A filesystem on which every path exists. -/
def allTrueFS : FS := ⟨fun _ => true, fun _ => true⟩

/-- A filesystem on which no path exists and no directory can be created. -/
def allFalseFS : FS := ⟨fun _ => false, fun _ => false⟩

/-! ## mainmixalot.py -/

/-- A first-level child object of the armature, with its Blender type tag
(`'MESH'`, `'EMPTY'`, ...). -/
structure SceneObject where
  name : String
  type : String
  deriving DecidableEq

/-- The armature object handed to `Convert`, reduced to the data the
embedded functions read: its first-level children. -/
structure ArmatureObject where
  children : List SceneObject
  deriving DecidableEq

/-- `mainmixalot._CheckArmatureContainsMesh`: loop over `obj.children`,
return `True` on the first child of type `'MESH'`, else `False`.
A pure query of the scene graph; the source performs no mutation. -/
def _CheckArmatureContainsMesh (obj : ArmatureObject) : Bool :=
  obj.children.any (fun childObj => childObj.type == "MESH")

/-- `mainmixalot._GetOutputFilename`.  The filesystem is abstracted as
`fs : FS`; the result is the returned path (`none` models Python `None`)
together with the list of directories the call created via `os.makedirs`. -/
def _GetOutputFilename (fs : FS) (isActor : Bool) (fbxFilename fbxOutputPath : Option String)
    (appendActorOrMotionPath : Bool) : Option String × List String :=
  let fbxFilename := pyStripOrEmpty fbxFilename
  let fbxOutputPath := pyStripOrEmpty fbxOutputPath
  if fbxFilename = "" then (none, [])
  else
    let name := (pySplitext fbxFilename).1
    let fbxFilename := name ++ ".fbx"
    let fbxOutputPath := if fbxOutputPath = "" then "." else fbxOutputPath
    let fbxOutputPath :=
      if appendActorOrMotionPath then
        let dirToAppend := if isActor then "Actor" else "Motions"
        let lastDir := pyBasename (pyNormpath fbxOutputPath)
        if lastDir ≠ dirToAppend then pyJoin fbxOutputPath dirToAppend
        else fbxOutputPath
      else fbxOutputPath
    if fs.pathExists fbxOutputPath then (some (pyJoin fbxOutputPath fbxFilename), [])
    else if fs.mkdirOk fbxOutputPath then
      (some (pyJoin fbxOutputPath fbxFilename), [fbxOutputPath])
    else (none, [])

/-- One event produced by the generator `mainmixalot.Convert`: either a
yielded `Status` message or an actual FBX export (`_ExportFbx` call). -/
inductive Event where
  | status (msg : String)
  | exportFbx (path : String)
  deriving DecidableEq

/-- `mainmixalot.Convert`, rendered as the list of events it produces.
The two conversion branches live in `actormixalot.py` / `motionmixalot.py`,
which are outside the embedded sources and do not influence the export
decision; the statuses their iterator yields are therefore taken as the
parameter `conversionStatuses`, applied to `isActor` and the resolved
hip/root bone names exactly as the source passes them. -/
def Convert (fs : FS) (armatureObj : ArmatureObject)
    (hipBoneName rootBoneName fbxFilename fbxOutputPath : Option String)
    (appendActorOrMotionPath : Bool)
    (conversionStatuses : Bool → String → String → List String) : List Event :=
  let hipBoneName := pyStripOrEmpty hipBoneName
  let rootBoneName := pyStripOrEmpty rootBoneName
  let hipBoneName := if hipBoneName = "" then "Hips" else hipBoneName
  let rootBoneName := if rootBoneName = "" then "root" else rootBoneName
  let isActor := _CheckArmatureContainsMesh armatureObj
  let outputFilename :=
    (_GetOutputFilename fs isActor fbxFilename fbxOutputPath appendActorOrMotionPath).1
  [Event.status "starting Convert",
   Event.status ("Checked Asset Type. isActor=" ++ pyBoolRepr isActor),
   Event.status "Processed output path strings"]
  ++ (conversionStatuses isActor hipBoneName rootBoneName).map Event.status
  ++ [Event.status "Completed Asset Conversion."]
  ++ (match outputFilename with
      | some p => [Event.exportFbx p, Event.status "FBX Assert exported."]
      | none => [])

/-! ## commonmixalot.py -/

/-- A bone of the armature, reduced to the data the embedded functions
read and write: its name and the name of its parent bone (`none` for a
parentless bone). -/
structure Bone where
  name : String
  parent : Option String
  deriving DecidableEq

/-- An armature's bone collection (`obj.data.bones` / `obj.data.edit_bones`;
both views expose the same names and parent links). -/
structure Armature where
  bones : List Bone
  deriving DecidableEq

/-- The names bound at top level in the `commonmixalot` module namespace:
its imports (`os`, `json`, `bpy`, and the public classes of
`from mathutils import *`) and its own definitions.  Python resolves a
global name against exactly this namespace (plus builtins, which do not
bind `cmn` either).  Note: `cmn` is not among them — `commonmixalot.py`
never imports or defines `cmn`. -/
def commonmixalotGlobals : List String :=
  ["os", "json", "bpy",
   "Color", "Euler", "Matrix", "Quaternion", "Vector",
   "Axis", "Dump", "Status",
   "ApplyCurrentRotationAs000", "GetRootBone", "HasOnlyOneRootBone",
   "HasRootMotionBone", "GetRestPoseMatrixFromPoseBone",
   "GetPoseBoneFromArmature", "AddSiblingRootBone", "MakeParentBone",
   "_ExportFbxInternal", "_MakeFilePathForFBX", "_CreateTexturesSubdir",
   "_UnpackTextures", "ExportFBX", "GetFirstAmature",
   "_ClearCachedCollectionData", "_ClearOldAnimationData",
   "_ClearOldTextureData", "ImportFBX", "FbxProperties",
   "GetFbxExportPropertiesObj", "GetFbxExportProperty",
   "StoreFbxExportProperty"]

/-- `commonmixalot.HasOnlyOneRootBone`: count the parentless bones and
compare the count with 1. -/
def HasOnlyOneRootBone (obj : Armature) : Bool :=
  (obj.bones.foldl (fun rootBoneCount bone =>
    if bone.parent = none then rootBoneCount + 1 else rootBoneCount) 0) == 1

/-- `commonmixalot.HasRootMotionBone`: is some parentless bone named
`rootBoneName`? -/
def HasRootMotionBone (obj : Armature) (rootBoneName : String) : Bool :=
  obj.bones.any (fun bone => bone.parent == none && bone.name == rootBoneName)

/-- `commonmixalot.AddSiblingRootBone`.  Its first statement is
`hasOnlyOneRootBone = cmn.HasOnlyOneRootBone(obj)`: the name `cmn` is
resolved against `commonmixalotGlobals`, and an unresolved global raises
`NameError` in Python, so the guards and the edit-mode bone creation below
are reached only if `cmn` were bound.  (The created bone's tail offset is a
rest-pose datum outside the `Bone` model and irrelevant to parenthood.) -/
def AddSiblingRootBone (obj : Armature) (boneName : String) : Except PyErr Armature :=
  if commonmixalotGlobals.contains "cmn" then
    let hasOnlyOneRootBone := HasOnlyOneRootBone obj
    let hasRootMotionBone := HasRootMotionBone obj boneName
    if hasOnlyOneRootBone && hasRootMotionBone then
      .error (.exception
        "Most likely this asset was already processed because it contains a single \x27root\x27 bone")
    else if hasRootMotionBone then
      .ok obj
    else
      .ok { obj with bones := obj.bones ++ [{ name := boneName, parent := none }] }
  else
    .error (.nameError "cmn")

/-- `bpy_prop_collection.find(key)`: index of the first member named `key`,
or `-1` when not found (documented to match Python `str.find`). -/
def ebFind : List Bone → String → Int
  | [], _ => -1
  | b :: rest, key =>
    if b.name = key then 0
    else
      let r := ebFind rest key
      if r = -1 then -1 else r + 1

/-- Integer subscript on a `bpy_prop_collection` of length `n`: Blender
collections support Python sequence indexing, including negative indices
counting from the end; out-of-range indices raise `IndexError`. -/
def pyCollIndex (n : Nat) (i : Int) : Option Nat :=
  if 0 ≤ i then (if i < (n : Int) then some i.toNat else none)
  else (if -(n : Int) ≤ i then some (i + (n : Int)).toNat else none)

/-- `commonmixalot.MakeParentBone`: look up both bone names with
`edit_bones.find` and execute
`ebones[childBoneIndex].parent = ebones[rootBoneIndex]` with Python
subscript semantics (right-hand side first). -/
def MakeParentBone (obj : Armature) (parentBoneName childBoneName : String) :
    Except PyErr Armature :=
  let ebones := obj.bones
  let rootBoneIndex := ebFind ebones parentBoneName
  let childBoneIndex := ebFind ebones childBoneName
  match pyCollIndex ebones.length rootBoneIndex with
  | none => .error .indexError
  | some ri =>
    match ebones.get? ri with
    | none => .error .indexError
    | some parentBone =>
      match pyCollIndex ebones.length childBoneIndex with
      | none => .error .indexError
      | some ci =>
        match ebones.get? ci with
        | none => .error .indexError
        | some childBone =>
          .ok { obj with bones := ebones.set ci { childBone with parent := some parentBone.name } }

/-- `commonmixalot._MakeFilePathForFBX`: normalize the filename to a
`.fbx` extension, ensure the output directory exists (creating it if
needed), and join; on directory-creation failure return `None`.  Result as
in `_GetOutputFilename`: the returned path plus created directories. -/
def _MakeFilePathForFBX (fs : FS) (fbxFilename fbxOutputPath : String) :
    Option String × List String :=
  let name := (pySplitext fbxFilename).1
  let fbxFilename := name ++ ".fbx"
  if fs.pathExists fbxOutputPath then (some (pyJoin fbxOutputPath fbxFilename), [])
  else if fs.mkdirOk fbxOutputPath then
    (some (pyJoin fbxOutputPath fbxFilename), [fbxOutputPath])
  else (none, [])

/-- An image resource in `bpy.data.images`, reduced to the fields
`_UnpackTextures` reads and writes. -/
structure PyImage where
  name : String
  filepath : String
  filepath_raw : String
  has_data : Bool
  deriving DecidableEq

/-- One `image.save()` call: which image was saved and at which path the
image's `filepath` pointed when it was saved. -/
structure SaveEvent where
  imageName : String
  path : String
  deriving DecidableEq

/-- `commonmixalot._CreateTexturesSubdir` (with its default
`subdirName = "textures"`): if at least one image has data, create
`outputDirectoryPath/textures` if absent and return it, falling back to
`outputDirectoryPath` on creation failure; with no loaded image, return
`outputDirectoryPath` untouched.  Result: chosen directory plus the
directories created. -/
def _CreateTexturesSubdir (fs : FS) (images : List PyImage) (outputDirectoryPath : String) :
    String × List String :=
  let hasImage := images.any (fun image => image.has_data)
  if !hasImage then (outputDirectoryPath, [])
  else
    let finalDir := pyJoin outputDirectoryPath "textures"
    if fs.pathExists finalDir then (finalDir, [])
    else if fs.mkdirOk finalDir then (finalDir, [finalDir])
    else (outputDirectoryPath, [])

/-- The body of the `for image in bpy.data.images` loop of
`_UnpackTextures`, acting on one image: skip images without data;
otherwise save the original path fields, point them at the new output
path, save the image there, and restore both fields. -/
def unpackTexturesLoopBody (outputDirectoryPath pfx : String) (image : PyImage) :
    PyImage × Option SaveEvent :=
  if !image.has_data then (image, none)
  else
    let originalFilepath := image.filepath
    let originalFilepathRaw := image.filepath_raw
    let originalImageFilename := pyBasename image.filepath
    let newFilename := pfx ++ "_" ++ originalImageFilename
    let finalOutputPath := pyJoin outputDirectoryPath newFilename
    let image := { image with filepath := finalOutputPath, filepath_raw := finalOutputPath }
    let ev := SaveEvent.mk image.name image.filepath
    let image := { image with filepath := originalFilepath, filepath_raw := originalFilepathRaw }
    (image, some ev)

/-- `commonmixalot._UnpackTextures`: choose the output directory via
`_CreateTexturesSubdir`, then run the loop body over `bpy.data.images`.
Result: the final image collection state and the save calls performed. -/
def _UnpackTextures (fs : FS) (images : List PyImage) (outputDirectoryPath pfx : String) :
    List PyImage × List SaveEvent :=
  let outputDirectoryPath := (_CreateTexturesSubdir fs images outputDirectoryPath).1
  ((images.map (unpackTexturesLoopBody outputDirectoryPath pfx)).map Prod.fst,
   (images.map (unpackTexturesLoopBody outputDirectoryPath pfx)).filterMap Prod.snd)

/-- `FbxProperties.ConfigJson`, the per-directory config filename. -/
def FbxPropertiesConfigJson : String := "lumbermixalot-config.json"

/-- The JSON files on disk, as a map from path to the parsed object (a
string-to-string dictionary, rendered as an association list); `none`
models `os.path.exists` returning `False`. -/
structure JsonFS where
  files : String → Option (List (String × String))

/-- `commonmixalot.GetFbxExportPropertiesObj`: `None` when the config file
does not exist, else the parsed JSON object. -/
def GetFbxExportPropertiesObj (fs : JsonFS) (optionsFileDir : String) :
    Option (List (String × String)) :=
  let filename := pyJoin optionsFileDir FbxPropertiesConfigJson
  fs.files filename

/-- `commonmixalot.GetFbxExportProperty`: `if obj: return obj[property]
else ""` — `None` and the empty dictionary are both falsy, and a missing
key in a truthy dictionary raises `KeyError`. -/
def GetFbxExportProperty (fs : JsonFS) (optionsFileDir property : String) :
    Except PyErr String :=
  match GetFbxExportPropertiesObj fs optionsFileDir with
  | none => .ok ""
  | some obj =>
    if obj.isEmpty then .ok ""
    else
      match obj.lookup property with
      | some v => .ok v
      | none => .error (.keyError property)

/-- `commonmixalot.StoreFbxExportProperty`: build the fresh dictionary
`{property: value}` and write it to the config file in `optionsFileDir`,
replacing any previous contents (`open(filename, 'w')`). -/
def StoreFbxExportProperty (fs : JsonFS) (optionsFileDir property value : String) : JsonFS :=
  let data := [(property, value)]
  let filename := pyJoin optionsFileDir FbxPropertiesConfigJson
  ⟨fun p => if p = filename then some data else fs.files p⟩

/-! ## Fixtures -/

/-- A hierarchy whose sole parentless bone is already named `"root"`: the
shape `AddSiblingRootBone` would be re-run on after a prior conversion. -/
def alreadyProcessedArmature : Armature :=
  ⟨[⟨"root", none⟩, ⟨"Hips", some "root"⟩, ⟨"Spine", some "Hips"⟩]⟩

/-- A post-synthesis hierarchy used to probe `MakeParentBone` with an
absent child-bone name. -/
def mpArmature : Armature :=
  ⟨[⟨"root", none⟩, ⟨"Hips", some "root"⟩, ⟨"Spine", some "Hips"⟩]⟩

/-! ## Helper lemmas -/

theorem addSiblingRootBone_nameError (obj : Armature) (boneName : String) :
    AddSiblingRootBone obj boneName = .error (.nameError "cmn") := by
  have h : commonmixalotGlobals.contains "cmn" = false := by decide
  unfold AddSiblingRootBone
  rw [if_neg (by rw [h]; exact Bool.false_ne_true)]

theorem ebFind_eq_neg_one (bones : List Bone) (key : String)
    (h : ∀ x ∈ bones, x.name ≠ key) : ebFind bones key = -1 := by
  induction bones with
  | nil => rfl
  | cons b rest ih =>
    have hb : b.name ≠ key := h b (by simp)
    have hr : ebFind rest key = -1 := ih (fun x hx => h x (by simp [hx]))
    simp [ebFind, hb, hr]

theorem ebFind_mem (bones : List Bone) (key : String)
    (h : ∃ x ∈ bones, x.name = key) :
    ∃ i : Nat, ebFind bones key = (i : Int) ∧ i < bones.length ∧
      ∃ pb, bones.get? i = some pb ∧ pb.name = key := by
  induction bones with
  | nil => simp at h
  | cons b rest ih =>
    by_cases hb : b.name = key
    · exact ⟨0, by simp [ebFind, hb], by simp, b, rfl, hb⟩
    · obtain ⟨x, hx, hxname⟩ := h
      have hx' : x ∈ rest := by
        rcases List.mem_cons.mp hx with h1 | h1
        · exact absurd (h1 ▸ hxname) hb
        · exact h1
      obtain ⟨i, hi, hlt, pb, hget, hname⟩ := ih ⟨x, hx', hxname⟩
      have hne : ebFind rest key ≠ -1 := by rw [hi]; omega
      refine ⟨i + 1, ?_, by simpa using hlt, pb, by simpa using hget, hname⟩
      simp only [ebFind, hb, if_false, if_neg hne, hi]
      push_cast
      ring

theorem pyCollIndex_natCast (n i : Nat) (h : i < n) : pyCollIndex n (i : Int) = some i := by
  unfold pyCollIndex
  rw [if_pos (by positivity), if_pos (by exact_mod_cast h)]
  simp

theorem pyCollIndex_neg_one (n : Nat) (h : 0 < n) : pyCollIndex n (-1) = some (n - 1) := by
  unfold pyCollIndex
  rw [if_neg (by omega), if_pos (by omega)]
  congr 1
  omega

theorem boneGet_append_singleton (l : List Bone) (b : Bone) :
    (l ++ [b]).get? l.length = some b := by
  induction l with
  | nil => rfl
  | cons x xs ih => simp [ih]

theorem boneSet_append_singleton (l : List Bone) (b x : Bone) :
    (l ++ [b]).set l.length x = l ++ [x] := by
  induction l with
  | nil => rfl
  | cons y ys ih => simp [ih]

/-! ## Claims -/

/-- C8: for every input, `AddSiblingRootBone` raises a `NameError` at its
first statement, because the body references the unbound global `cmn`
(`commonmixalot.py` never imports or defines `cmn`); consequently the
already-processed guard and the edit-mode bone creation are unreachable and
no root bone is ever created by this function. -/
theorem c8_addSiblingRootBone_always_nameError (obj : Armature) (boneName : String) :
    AddSiblingRootBone obj boneName = .error (.nameError "cmn") ∧
    commonmixalotGlobals.contains "cmn" = false ∧
    (∀ a : Armature, AddSiblingRootBone obj boneName ≠ .ok a) := by
  refine ⟨addSiblingRootBone_nameError obj boneName, by decide, ?_⟩
  intro a
  rw [addSiblingRootBone_nameError obj boneName]
  simp

/-- C1: on an armature whose sole parentless bone is already named
`rootBoneName` (here `"root"`), the guard functions the source intends to
call do detect the already-processed state, but `AddSiblingRootBone` itself
raises `NameError('cmn')` at its first statement instead of the
already-processed exception.  No mutation happens before the raise, yet the
raised error is a `NameError`, not the documented already-processed error. -/
theorem c1_already_processed_raises_nameError :
    HasOnlyOneRootBone alreadyProcessedArmature = true ∧
    HasRootMotionBone alreadyProcessedArmature "root" = true ∧
    AddSiblingRootBone alreadyProcessedArmature "root" = .error (.nameError "cmn") ∧
    ∀ msg : String,
      AddSiblingRootBone alreadyProcessedArmature "root" ≠ .error (.exception msg) := by
  refine ⟨by decide, by decide, addSiblingRootBone_nameError _ _, ?_⟩
  intro msg
  rw [addSiblingRootBone_nameError]
  simp

/-- C2 counterexample: on the hierarchy `[root, Hips, Spine]` with the
absent child-bone name `"NoSuchBone"`, `MakeParentBone` raises no error at
all — `edit_bones.find` returns `-1`, the negative subscript selects the
LAST bone of the collection (`Spine`), and that bone is silently reparented
under `"root"`: a structural mutation under a wrong parent is committed. -/
theorem c2_unknown_child_counterexample :
    MakeParentBone mpArmature "root" "NoSuchBone" =
      .ok ⟨[⟨"root", none⟩, ⟨"Hips", some "root"⟩, ⟨"Spine", some "root"⟩]⟩ ∧
    (Armature.mk [⟨"root", none⟩, ⟨"Hips", some "root"⟩, ⟨"Spine", some "root"⟩]) ≠ mpArmature ∧
    (∀ e : PyErr, MakeParentBone mpArmature "root" "NoSuchBone" ≠ .error e) := by
  refine ⟨by decide, by decide, ?_⟩
  intro e
  rw [show MakeParentBone mpArmature "root" "NoSuchBone" =
      .ok ⟨[⟨"root", none⟩, ⟨"Hips", some "root"⟩, ⟨"Spine", some "root"⟩]⟩ from by decide]
  simp

/-- C2 amended: when `childBoneName` names no bone of the hierarchy and
`parentBoneName` names one, `MakeParentBone` raises no unknown-bone error;
`find` yields `-1` and Python negative indexing selects the collection's
last bone, which is reparented under `parentBoneName`. -/
theorem c2_amended_reparents_last_bone (a : Armature) (pn cn : String)
    (l : List Bone) (b : Bone)
    (hnc : ∀ x ∈ a.bones, x.name ≠ cn)
    (hp : ∃ x ∈ a.bones, x.name = pn)
    (hl : a.bones = l ++ [b]) :
    MakeParentBone a pn cn = .ok ⟨l ++ [{ b with parent := some pn }]⟩ := by
  have hfc : ebFind a.bones cn = -1 := ebFind_eq_neg_one _ _ hnc
  obtain ⟨i, hfi, hilt, pb, hget, hname⟩ := ebFind_mem _ _ hp
  have hlen : a.bones.length = l.length + 1 := by rw [hl]; simp
  have hpos : 0 < a.bones.length := by omega
  have hgetlast : a.bones.get? (a.bones.length - 1) = some b := by
    rw [hl]
    have h1 : (l ++ [b]).length - 1 = l.length := by simp
    rw [h1]
    exact boneGet_append_singleton l b
  have hset : a.bones.set (a.bones.length - 1) { b with parent := some pn } =
      l ++ [{ b with parent := some pn }] := by
    rw [hl]
    have h1 : (l ++ [b]).length - 1 = l.length := by simp
    rw [h1]
    exact boneSet_append_singleton l b _
  unfold MakeParentBone
  simp only [hfi, hfc, pyCollIndex_natCast _ _ hilt, pyCollIndex_neg_one _ hpos,
    hget, hgetlast, hname, hset]

/-- C2 witness: concrete run of the amended statement — on
`[root, Hips, LeftLeg]` with absent child name `"Nope"`, the last bone
`LeftLeg` is reparented under `"root"` and no error is raised. -/
theorem c2_amended_witness :
    MakeParentBone ⟨[⟨"root", none⟩, ⟨"Hips", some "root"⟩, ⟨"LeftLeg", some "Hips"⟩]⟩
      "root" "Nope" =
    .ok ⟨[⟨"root", none⟩, ⟨"Hips", some "root"⟩, ⟨"LeftLeg", some "root"⟩]⟩ :=
  c2_amended_reparents_last_bone
    ⟨[⟨"root", none⟩, ⟨"Hips", some "root"⟩, ⟨"LeftLeg", some "Hips"⟩]⟩
    "root" "Nope" [⟨"root", none⟩, ⟨"Hips", some "root"⟩] ⟨"LeftLeg", some "Hips"⟩
    (by decide) (by decide) rfl

/-- C3: for every armature object, `_CheckArmatureContainsMesh` returns
`True` iff at least one direct (first-level) child object has type
`'MESH'`, and `False` iff no direct child does; `Convert` classifies the
asset as Actor exactly on this value.  The query is a pure function of the
children list. -/
theorem c3_classification_iff_direct_mesh_child (obj : ArmatureObject) :
    (_CheckArmatureContainsMesh obj = true ↔ ∃ c ∈ obj.children, c.type = "MESH") ∧
    (_CheckArmatureContainsMesh obj = false ↔ ∀ c ∈ obj.children, c.type ≠ "MESH") := by
  constructor
  · simp [_CheckArmatureContainsMesh, List.any_eq_true]
  · simp [_CheckArmatureContainsMesh, List.any_eq_false]

/-- C4: with `appendActorOrMotionPath` set, output-path resolution appends
`"Actor"` for an Actor asset and `"Motions"` for a Motion asset — filename
`"anim"` and directory `"out"` resolve to `"out/Motions/anim.fbx"` /
`"out/Actor/anim.fbx"` — and when the directory's last path segment already
equals that segment, no duplicate segment is appended: the resolved path
joins the directory as given. -/
theorem c4_output_path_resolution :
    (∀ fs : FS, fs.pathExists "out/Motions" = true →
      _GetOutputFilename fs false (some "anim") (some "out") true =
        (some "out/Motions/anim.fbx", [])) ∧
    (∀ fs : FS, fs.pathExists "out/Actor" = true →
      _GetOutputFilename fs true (some "anim") (some "out") true =
        (some "out/Actor/anim.fbx", [])) ∧
    (∀ (fs : FS) (isActor : Bool) (fname dir p : String) (ds : List String),
      pyStrip fname ≠ "" → pyStrip dir ≠ "" →
      pyBasename (pyNormpath (pyStrip dir)) = (if isActor then "Actor" else "Motions") →
      _GetOutputFilename fs isActor (some fname) (some dir) true = (some p, ds) →
      p = pyJoin (pyStrip dir) ((pySplitext (pyStrip fname)).1 ++ ".fbx")) := by
  refine ⟨?_, ?_, ?_⟩
  · intro fs h
    have hr : _GetOutputFilename fs false (some "anim") (some "out") true =
        (if fs.pathExists "out/Motions" = true then ((some "out/Motions/anim.fbx", []) : Option String × List String)
         else if fs.mkdirOk "out/Motions" = true then (some "out/Motions/anim.fbx", ["out/Motions"])
         else (none, [])) := rfl
    rw [hr, h]
    simp
  · intro fs h
    have hr : _GetOutputFilename fs true (some "anim") (some "out") true =
        (if fs.pathExists "out/Actor" = true then ((some "out/Actor/anim.fbx", []) : Option String × List String)
         else if fs.mkdirOk "out/Actor" = true then (some "out/Actor/anim.fbx", ["out/Actor"])
         else (none, [])) := rfl
    rw [hr, h]
    simp
  · intro fs isActor fname dir p ds h1 h2 h3 h4
    unfold _GetOutputFilename at h4
    dsimp only [pyStripOrEmpty] at h4
    rw [if_neg h1, if_neg h2] at h4
    rw [h3] at h4
    simp only [ne_eq, not_true_eq_false, if_false, if_true] at h4
    split at h4
    · simp only [Prod.mk.injEq, Option.some.injEq] at h4
      exact h4.1.symm
    · split at h4
      · simp only [Prod.mk.injEq, Option.some.injEq] at h4
        exact h4.1.symm
      · simp at h4

/-- C4 witness: the three parts of the path-resolution statement applied
at concrete inputs, with every hypothesis discharged by evaluation. -/
theorem c4_output_path_resolution_witness :
    _GetOutputFilename allTrueFS false (some "anim") (some "out") true =
      (some "out/Motions/anim.fbx", []) ∧
    _GetOutputFilename allTrueFS true (some "anim") (some "out") true =
      (some "out/Actor/anim.fbx", []) ∧
    "out/Motions/anim.fbx" =
      pyJoin (pyStrip "out/Motions") ((pySplitext (pyStrip "anim")).1 ++ ".fbx") :=
  ⟨c4_output_path_resolution.1 allTrueFS rfl,
   c4_output_path_resolution.2.1 allTrueFS rfl,
   c4_output_path_resolution.2.2 allTrueFS false "anim" "out/Motions"
     "out/Motions/anim.fbx" [] (by decide) (by decide) (by decide) (by decide)⟩

/-- Helper: on a filesystem where no path exists and no directory can be
created, `_GetOutputFilename` returns `None` and creates nothing,
whatever the other arguments. -/
theorem getOutputFilename_none_of_fs_fail (fs : FS)
    (hex : ∀ d, fs.pathExists d = false) (hmk : ∀ d, fs.mkdirOk d = false)
    (isActor : Bool) (fname dirOpt : Option String) (app : Bool) :
    _GetOutputFilename fs isActor fname dirOpt app = (none, []) := by
  unfold _GetOutputFilename
  dsimp only
  split
  · rfl
  · simp [hex, hmk]

/-- Helper: whenever path resolution yields no output path, `Convert`
yields exactly the three pipeline statuses, the conversion branch's
statuses, and the completion status — and performs no export. -/
theorem convert_trace_no_export (fs : FS) (obj : ArmatureObject)
    (hip root fname dirOpt : Option String) (app : Bool)
    (css : Bool → String → String → List String)
    (h : (_GetOutputFilename fs (_CheckArmatureContainsMesh obj) fname dirOpt app).1 = none) :
    Convert fs obj hip root fname dirOpt app css =
      [Event.status "starting Convert",
       Event.status ("Checked Asset Type. isActor=" ++
         pyBoolRepr (_CheckArmatureContainsMesh obj)),
       Event.status "Processed output path strings"]
      ++ (css (_CheckArmatureContainsMesh obj)
            (if pyStripOrEmpty hip = "" then "Hips" else pyStripOrEmpty hip)
            (if pyStripOrEmpty root = "" then "root" else pyStripOrEmpty root)).map Event.status
      ++ [Event.status "Completed Asset Conversion."] := by
  unfold Convert
  dsimp only
  rw [h]
  simp

/-- C5: if the output directory cannot be created, `_GetOutputFilename`
returns the do-not-export sentinel `None` (raising nothing and creating
nothing), and `Convert` still yields the complete conversion trace — all
branch statuses and the completion status — with no export event at all:
directory-creation failure is never fatal to the conversion. -/
theorem c5_dir_creation_failure_nonfatal (fs : FS) (obj : ArmatureObject)
    (hip root : Option String) (fname dir : String) (app : Bool)
    (css : Bool → String → String → List String)
    (hex : ∀ d, fs.pathExists d = false) (hmk : ∀ d, fs.mkdirOk d = false) :
    _GetOutputFilename fs (_CheckArmatureContainsMesh obj) (some fname) (some dir) app =
      (none, []) ∧
    Convert fs obj hip root (some fname) (some dir) app css =
      [Event.status "starting Convert",
       Event.status ("Checked Asset Type. isActor=" ++
         pyBoolRepr (_CheckArmatureContainsMesh obj)),
       Event.status "Processed output path strings"]
      ++ (css (_CheckArmatureContainsMesh obj)
            (if pyStripOrEmpty hip = "" then "Hips" else pyStripOrEmpty hip)
            (if pyStripOrEmpty root = "" then "root" else pyStripOrEmpty root)).map Event.status
      ++ [Event.status "Completed Asset Conversion."] ∧
    (∀ pth, Event.exportFbx pth ∉ Convert fs obj hip root (some fname) (some dir) app css) := by
  have hg := getOutputFilename_none_of_fs_fail fs hex hmk
    (_CheckArmatureContainsMesh obj) (some fname) (some dir) app
  have ht := convert_trace_no_export fs obj hip root (some fname) (some dir) app css
    (by rw [hg])
  refine ⟨hg, ht, ?_⟩
  intro pth
  rw [ht]
  simp

/-- C5 witness: concrete failing filesystem, Motion-shaped armature (no
children), filename `"anim"`, directory `"out"`. -/
theorem c5_dir_creation_failure_nonfatal_witness :
    _GetOutputFilename allFalseFS (_CheckArmatureContainsMesh ⟨[]⟩) (some "anim") (some "out")
      true = (none, []) ∧
    Convert allFalseFS ⟨[]⟩ none none (some "anim") (some "out") true
      (fun _ _ _ => ["converting"]) =
      [Event.status "starting Convert",
       Event.status ("Checked Asset Type. isActor=" ++
         pyBoolRepr (_CheckArmatureContainsMesh ⟨[]⟩)),
       Event.status "Processed output path strings"]
      ++ ((fun (_ : Bool) (_ _ : String) => ["converting"]) (_CheckArmatureContainsMesh ⟨[]⟩)
            (if pyStripOrEmpty none = "" then "Hips" else pyStripOrEmpty none)
            (if pyStripOrEmpty none = "" then "root" else pyStripOrEmpty none)).map Event.status
      ++ [Event.status "Completed Asset Conversion."] ∧
    (∀ pth, Event.exportFbx pth ∉ Convert allFalseFS ⟨[]⟩ none none (some "anim") (some "out")
      true (fun _ _ _ => ["converting"])) :=
  c5_dir_creation_failure_nonfatal allFalseFS ⟨[]⟩ none none "anim" "out" true
    (fun _ _ _ => ["converting"]) (fun _ => rfl) (fun _ => rfl)

/-- C9: for every `fbxFilename` that is `None`, empty, or whitespace-only,
`_GetOutputFilename` returns `None` regardless of the other arguments and
creates no directory, and `Convert` then performs the entire conversion —
full status trace — without any FBX export event. -/
theorem c9_blank_filename_no_export (fs : FS) (isActor : Bool)
    (fname dirOpt : Option String) (app : Bool)
    (h : pyStripOrEmpty fname = "") :
    _GetOutputFilename fs isActor fname dirOpt app = (none, []) ∧
    ∀ (obj : ArmatureObject) (hip root : Option String)
      (css : Bool → String → String → List String),
      Convert fs obj hip root fname dirOpt app css =
        [Event.status "starting Convert",
         Event.status ("Checked Asset Type. isActor=" ++
           pyBoolRepr (_CheckArmatureContainsMesh obj)),
         Event.status "Processed output path strings"]
        ++ (css (_CheckArmatureContainsMesh obj)
              (if pyStripOrEmpty hip = "" then "Hips" else pyStripOrEmpty hip)
              (if pyStripOrEmpty root = "" then "root" else pyStripOrEmpty root)).map
            Event.status
        ++ [Event.status "Completed Asset Conversion."] ∧
      (∀ pth, Event.exportFbx pth ∉ Convert fs obj hip root fname dirOpt app css) := by
  have hg : ∀ act : Bool, _GetOutputFilename fs act fname dirOpt app = (none, []) := by
    intro act
    unfold _GetOutputFilename
    dsimp only
    rw [if_pos h]
  refine ⟨hg isActor, ?_⟩
  intro obj hip root css
  have ht := convert_trace_no_export fs obj hip root fname dirOpt app css
    (by rw [hg (_CheckArmatureContainsMesh obj)])
  refine ⟨ht, ?_⟩
  intro pth
  rw [ht]
  simp

/-- C9 witness: a whitespace-only filename with an everything-succeeds
filesystem still yields no output path and an export-free trace. -/
theorem c9_blank_filename_no_export_witness :
    _GetOutputFilename allTrueFS true (some "   ") (some "out") true = (none, []) ∧
    ∀ (obj : ArmatureObject) (hip root : Option String)
      (css : Bool → String → String → List String),
      Convert allTrueFS obj hip root (some "   ") (some "out") true css =
        [Event.status "starting Convert",
         Event.status ("Checked Asset Type. isActor=" ++
           pyBoolRepr (_CheckArmatureContainsMesh obj)),
         Event.status "Processed output path strings"]
        ++ (css (_CheckArmatureContainsMesh obj)
              (if pyStripOrEmpty hip = "" then "Hips" else pyStripOrEmpty hip)
              (if pyStripOrEmpty root = "" then "root" else pyStripOrEmpty root)).map
            Event.status
        ++ [Event.status "Completed Asset Conversion."] ∧
      (∀ pth, Event.exportFbx pth ∉ Convert allTrueFS obj hip root (some "   ") (some "out")
        true css) :=
  c9_blank_filename_no_export allTrueFS true (some "   ") (some "out") true (by decide)

/-- Helper: appending a fixed tail on both sides preserves and reflects
the list-suffix relation. -/
theorem suffix_append_right_iff {α : Type} (a b t : List α) :
    a ++ t <:+ b ++ t ↔ a <:+ b := by
  constructor
  · intro h
    have h1 := List.reverse_prefix.mpr h
    rw [List.reverse_append, List.reverse_append] at h1
    exact List.reverse_prefix.mp ((List.prefix_append_right_inj t.reverse).mp h1)
  · intro h
    obtain ⟨u, hu⟩ := h
    exact ⟨u, by rw [← List.append_assoc, hu]⟩

/-- C6 counterexample: the non-empty input filename `"anim.fbx.txt"` has
its final extension `".txt"` replaced, but the resolved export filename
`"anim.fbx.fbx"` then ends in TWO `".fbx"` occurrences, not exactly one. -/
theorem c6_extension_counterexample :
    _MakeFilePathForFBX allTrueFS "anim.fbx.txt" "out" = (some "out/anim.fbx.fbx", []) ∧
    ".fbx.fbx".data <:+ (pyBasename "out/anim.fbx.fbx").data := by
  constructor
  · rfl
  · exact ⟨"anim".data, by decide⟩

/-- C6 amended: the resolved export filename is the input's
`splitext`-stem with `".fbx"` appended — an existing final extension is
replaced and `".fbx"` is appended if absent — so the result always ends in
`".fbx"`; it ends in exactly one `".fbx"` provided the input's stem does
not itself end in `".fbx"` (inputs such as `"anim.fbx.txt"` keep the extra
`".fbx"` in their stem). -/
theorem c6_amended_extension_normalization (fs : FS) (f dir p : String) (ds : List String)
    (_hne : f ≠ "")
    (h : _MakeFilePathForFBX fs f dir = (some p, ds)) :
    p = pyJoin dir ((pySplitext f).1 ++ ".fbx") ∧
    ".fbx".data <:+ ((pySplitext f).1 ++ ".fbx").data ∧
    (¬ (".fbx".data <:+ (pySplitext f).1.data) →
      ¬ (".fbx.fbx".data <:+ ((pySplitext f).1 ++ ".fbx").data)) := by
  refine ⟨?_, ?_, ?_⟩
  · unfold _MakeFilePathForFBX at h
    dsimp only at h
    split at h
    · simp only [Prod.mk.injEq, Option.some.injEq] at h
      exact h.1.symm
    · split at h
      · simp only [Prod.mk.injEq, Option.some.injEq] at h
        exact h.1.symm
      · simp at h
  · rw [String.data_append]
    exact List.suffix_append _ _
  · intro hnot hcon
    apply hnot
    rw [String.data_append] at hcon
    have hsplit : (".fbx.fbx").data = (".fbx").data ++ (".fbx").data := by decide
    rw [hsplit] at hcon
    exact (suffix_append_right_iff _ _ _).mp hcon

/-- C6 witness: the amended statement at input `"anim"`, directory
`"out"`: resolved name `"out/anim.fbx"`, single `".fbx"`. -/
theorem c6_amended_witness :
    "out/anim.fbx" = pyJoin "out" ((pySplitext "anim").1 ++ ".fbx") ∧
    ".fbx".data <:+ ((pySplitext "anim").1 ++ ".fbx").data ∧
    (¬ (".fbx".data <:+ (pySplitext "anim").1.data) →
      ¬ (".fbx.fbx".data <:+ ((pySplitext "anim").1 ++ ".fbx").data)) :=
  c6_amended_extension_normalization allTrueFS "anim" "out" "out/anim.fbx" [] (by decide) rfl

/-- Helper: one pass of the `_UnpackTextures` loop body leaves the image
record exactly as it found it — `filepath` and `filepath_raw` are restored
to their originals after the save. -/
theorem unpackTexturesLoopBody_fst (d pfx : String) (img : PyImage) :
    (unpackTexturesLoopBody d pfx img).1 = img := by
  cases img with
  | mk n fp fpr hd => cases hd <;> rfl

/-- Helper: the save calls of the `_UnpackTextures` loop are exactly one
per loaded image, at `d/<pfx>_<basename of the original filepath>`. -/
theorem unpackTexturesLoopBody_snd_map (d pfx : String) (images : List PyImage) :
    (images.map (unpackTexturesLoopBody d pfx)).filterMap Prod.snd =
      (images.filter (fun i => i.has_data)).map (fun i =>
        SaveEvent.mk i.name (pyJoin d (pfx ++ "_" ++ pyBasename i.filepath))) := by
  induction images with
  | nil => rfl
  | cons img rest ih =>
    cases img with
    | mk n fp fpr hd =>
      cases hd
      · simpa [unpackTexturesLoopBody] using ih
      · simpa [unpackTexturesLoopBody] using ih

/-- C7: texture extraction is a save-as-copy.  When the `textures`
subdirectory of the output directory exists (or is created), every loaded
image is saved there under the prefixed filename
`<pfx>_<basename of its original filepath>`, and the final image
collection equals the initial one — each image's `filepath` and
`filepath_raw` are restored, so the live scene state is unchanged. -/
theorem c7_unpack_textures_save_as_copy (fs : FS) (images : List PyImage)
    (outDir pfx : String)
    (hsub : fs.pathExists (pyJoin outDir "textures") = true) :
    (_UnpackTextures fs images outDir pfx).1 = images ∧
    (_UnpackTextures fs images outDir pfx).2 =
      (images.filter (fun i => i.has_data)).map (fun i =>
        SaveEvent.mk i.name
          (pyJoin (pyJoin outDir "textures") (pfx ++ "_" ++ pyBasename i.filepath))) := by
  constructor
  · show (images.map
      (unpackTexturesLoopBody ((_CreateTexturesSubdir fs images outDir).1) pfx)).map
        Prod.fst = images
    rw [List.map_map]
    have hid : Prod.fst ∘ unpackTexturesLoopBody ((_CreateTexturesSubdir fs images outDir).1)
        pfx = id := funext (fun img => unpackTexturesLoopBody_fst _ _ img)
    rw [hid, List.map_id]
  · show (images.map
      (unpackTexturesLoopBody ((_CreateTexturesSubdir fs images outDir).1) pfx)).filterMap
        Prod.snd = _
    rw [unpackTexturesLoopBody_snd_map]
    by_cases hImg : images.any (fun image => image.has_data) = true
    · have hdir : (_CreateTexturesSubdir fs images outDir).1 = pyJoin outDir "textures" := by
        simp [_CreateTexturesSubdir, hImg, hsub]
      rw [hdir]
    · have hfil : images.filter (fun i => i.has_data) = [] := by
        simp only [List.any_eq_true, not_exists] at hImg
        simp only [List.filter_eq_nil_iff]
        intro a ha
        simp only [not_and] at hImg
        exact fun hdata => (hImg a) ha hdata
      rw [hfil]
      simp

/-- C7 witness: one loaded and one unloaded image; only the loaded one is
saved, into `out/textures` with the `anim_` prefix, and the collection is
unchanged. -/
theorem c7_unpack_textures_save_as_copy_witness :
    (_UnpackTextures allTrueFS
        [⟨"img1", "//tex/a.png", "//tex/a.png", true⟩, ⟨"img2", "x", "y", false⟩]
        "out" "anim").1 =
      [⟨"img1", "//tex/a.png", "//tex/a.png", true⟩, ⟨"img2", "x", "y", false⟩] ∧
    (_UnpackTextures allTrueFS
        [⟨"img1", "//tex/a.png", "//tex/a.png", true⟩, ⟨"img2", "x", "y", false⟩]
        "out" "anim").2 =
      ([⟨"img1", "//tex/a.png", "//tex/a.png", true⟩,
        (⟨"img2", "x", "y", false⟩ : PyImage)].filter (fun i => i.has_data)).map (fun i =>
          SaveEvent.mk i.name
            (pyJoin (pyJoin "out" "textures") ("anim" ++ "_" ++ pyBasename i.filepath))) :=
  c7_unpack_textures_save_as_copy allTrueFS
    [⟨"img1", "//tex/a.png", "//tex/a.png", true⟩, ⟨"img2", "x", "y", false⟩]
    "out" "anim" rfl

/-- C10: `StoreFbxExportProperty dir p v` rewrites the per-directory config
file to exactly the single entry `{p: v}`; afterwards
`GetFbxExportProperty dir p` returns `v`, while any distinct property `q`
previously stored in the same directory is gone — the lookup raises
`KeyError` instead of returning the old value. -/
theorem c10_store_replaces_config (fs : JsonFS) (dir p q v w : String)
    (hpq : q ≠ p)
    (_hprev : GetFbxExportProperty fs dir q = .ok w) :
    GetFbxExportPropertiesObj (StoreFbxExportProperty fs dir p v) dir = some [(p, v)] ∧
    GetFbxExportProperty (StoreFbxExportProperty fs dir p v) dir p = .ok v ∧
    GetFbxExportProperty (StoreFbxExportProperty fs dir p v) dir q =
      .error (.keyError q) := by
  have hobj : GetFbxExportPropertiesObj (StoreFbxExportProperty fs dir p v) dir =
      some [(p, v)] := by
    unfold GetFbxExportPropertiesObj StoreFbxExportProperty
    simp
  refine ⟨hobj, ?_, ?_⟩
  · unfold GetFbxExportProperty
    rw [hobj]
    simp [List.lookup]
  · unfold GetFbxExportProperty
    rw [hobj]
    have hb : (q == p) = false := beq_eq_false_iff_ne.mpr hpq
    simp [List.lookup, hb]

/-- C10 witness: store `a ↦ x` in a directory whose config previously held
`b ↦ old`; `a` now reads back `x` and `b` raises `KeyError`. -/
theorem c10_store_replaces_config_witness :
    GetFbxExportPropertiesObj
      (StoreFbxExportProperty
        ⟨fun pth => if pth = pyJoin "d" FbxPropertiesConfigJson then some [("b", "old")]
          else none⟩ "d" "a" "x") "d" = some [("a", "x")] ∧
    GetFbxExportProperty
      (StoreFbxExportProperty
        ⟨fun pth => if pth = pyJoin "d" FbxPropertiesConfigJson then some [("b", "old")]
          else none⟩ "d" "a" "x") "d" "a" = .ok "x" ∧
    GetFbxExportProperty
      (StoreFbxExportProperty
        ⟨fun pth => if pth = pyJoin "d" FbxPropertiesConfigJson then some [("b", "old")]
          else none⟩ "d" "a" "x") "d" "b" = .error (.keyError "b") :=
  c10_store_replaces_config
    ⟨fun pth => if pth = pyJoin "d" FbxPropertiesConfigJson then some [("b", "old")]
      else none⟩ "d" "a" "b" "x" "old" (by decide) (by decide)
